import Mathlib

/-!
Shallow embedding of the concurrency and lifecycle core of the kos-zbot
control service (src/kos_zbot/imu.py and src/kos_zbot/kos.py), together
with theorems checking the specification's claims against it.

Python floats are modelled as exact rationals (ℚ); none of the verified
properties depends on floating-point rounding.  Nullable sensor readings
are modelled with Option.
-/

set_option autoImplicit false

namespace KosZbot

/-! ## Handoff Channel (imu.py: `Queue(maxsize=1)` and `_sensor_proc` lines 51-64)

The IPC queue is modelled as a list of samples; its capacity-1 bound is
enforced, as in `multiprocessing.Queue(maxsize=1)`, by `put_nowait`
raising `queue.Full` (a no-op here, since the producer ignores it).
Each primitive queue operation is one atomic event, so that arbitrary
interleavings of the one producer and the one consumer are sequences of
events. -/

/-- One atomic operation on the IPC queue.
`checkFull` is the producer's `q.full()` test (no state change);
`evict` is the producer's `q.get_nowait()` drop-oldest step, with
`queue.Empty` ignored; `put s` is `q.put_nowait(s)`, with `queue.Full`
ignored; `pop` is the consumer's `q.get(timeout=0.1)`, where a `none`
result models `queue.Empty` on timeout. -/
inductive ChanEvt (α : Type) where
  | checkFull : ChanEvt α
  | evict : ChanEvt α
  | put : α → ChanEvt α
  | pop : ChanEvt α
deriving DecidableEq

/-- Capacity of the handoff queue: `Queue(maxsize=1)` (imu.py line 76). -/
def chanCap : Nat := 1

/-- `put_nowait` succeeds exactly when the queue is below capacity. -/
def putOk (q : List ℕ) : Bool := q.length < chanCap

/-- Atomic semantics of one event: the new queue contents and the value
returned to the consumer (only a `pop` returns one). -/
def chanApply (q : List ℕ) : ChanEvt ℕ → List ℕ × Option ℕ
  | ChanEvt.checkFull => (q, none)
  | ChanEvt.evict => (q.drop 1, none)
  | ChanEvt.put s => (if q.length < chanCap then q ++ [s] else q, none)
  | ChanEvt.pop =>
      match q with
      | [] => ([], none)
      | x :: rest => (rest, some x)

/-- Run a sequence of events, returning the final queue contents. -/
def chanRun (q : List ℕ) : List (ChanEvt ℕ) → List ℕ
  | [] => q
  | e :: es => chanRun (chanApply q e).1 es

/-- The values handed to the consumer along a run. -/
def chanResults (q : List ℕ) : List (ChanEvt ℕ) → List (Option ℕ)
  | [] => []
  | e :: es => (chanApply q e).2 :: chanResults (chanApply q e).1 es

/-- Along this event sequence, no `put` succeeds: every `put` is attempted
against a full queue (its `queue.Full` is ignored).  This is the shape of
any event window that starts strictly after the last successful push. -/
def NoSuccessfulPut : List ℕ → List (ChanEvt ℕ) → Prop
  | _, [] => True
  | q, e :: es =>
      (match e with
       | ChanEvt.put _ => putOk q = false
       | _ => True) ∧ NoSuccessfulPut (chanApply q e).1 es

/-! ## Sampler tick (imu.py: `_sensor_proc` lines 26-68) -/

/-- A sensor field tuple: a vector of possibly-null readings. -/
abbrev FieldTuple := List (Option ℚ)

/-- One sample read per tick (imu.py lines 39-45): the 5-tuple
(acceleration, gyro, magnetic, quaternion, calibration status), each
component itself possibly None when the driver fails part of the read. -/
structure SensorSample where
  accel : Option FieldTuple
  gyro : Option FieldTuple
  mag : Option FieldTuple
  quat : Option FieldTuple
  calib : Option FieldTuple
deriving DecidableEq

/-- The producer's push (imu.py lines 51-62), executed without consumer
interleaving: if the size-1 queue is full, drop the oldest sample
(`get_nowait`, `queue.Empty` ignored), then `put_nowait` the new sample
(`queue.Full` ignored). -/
def pushLatest (q : List ℕ) (s : ℕ) : List ℕ :=
  let q1 := if chanCap ≤ q.length then (chanApply q ChanEvt.evict).1 else q
  (chanApply q1 (ChanEvt.put s)).1

/-- One tick's read-and-push (imu.py lines 38-64): an exception raised by
the sensor read is caught and logged, `data` is set to None, and the
`if data:` guard skips the push; on a successful read the (nonempty,
hence truthy) tuple is pushed with overwrite-oldest semantics.
The queue here carries abstract sample identifiers. -/
def sensorTick (read : Except String ℕ) (q : List ℕ) : List ℕ :=
  match read with
  | Except.error _ => q
  | Except.ok d => pushLatest q d

/-- The sampler loop's queue effect over a sequence of tick read results:
every tick is processed; a failed read never terminates the loop. -/
def runTicks (reads : List (Except String ℕ)) (q : List ℕ) : List ℕ :=
  match reads with
  | [] => q
  | r :: rs => runTicks rs (sensorTick r q)

/-! ## Deadline scheduling (imu.py: `_sensor_proc` lines 26-35, 66-68) -/

/-- The deadline update at the top of each loop iteration: if `now` has
passed the previous deadline (overrun), resynchronize the schedule to
`now`; then add one period. -/
def nextDeadline (now prevDeadline period : ℚ) : ℚ :=
  (if now > prevDeadline then now else prevDeadline) + period

/-- The sleep decision at the bottom of the loop: with
`sleep_time = next_deadline - now`, the loop sleeps iff `sleep_time > 0`,
and otherwise proceeds immediately. -/
def sleepsFor (deadline now : ℚ) : Bool := decide (0 < deadline - now)

/-! ## State Buffer merge (imu.py: `__init__` lines 82-88, `_reader_loop`
lines 129-148) -/

/-- The five buffer slots.  Each slot stores the tuple exactly as received
from the queue, so a slot value can in principle mention `none`; the
claims are about when that can actually happen. -/
structure StateBuffer where
  accel : FieldTuple
  gyro : FieldTuple
  mag : FieldTuple
  quat : FieldTuple
  calib : FieldTuple
deriving DecidableEq

/-- The zero-valued defaults installed by `BNO055Manager.__init__`. -/
def initBuffer : StateBuffer :=
  { accel := [some 0, some 0, some 0]
    gyro := [some 0, some 0, some 0]
    mag := [some 0, some 0, some 0]
    quat := [some 0, some 0, some 0, some 0]
    calib := [some 0, some 0, some 0, some 0] }

/-- The validity test `x is not None and all(v is not None for v in x)`
used for each field in `_reader_loop`. -/
def fieldValid : Option FieldTuple → Bool
  | none => false
  | some t => t.all (fun v => v.isSome)

/-- Merge one field: overwrite the slot only when the incoming tuple is
non-null with every element non-null; otherwise keep the old value. -/
def mergeField (slot : FieldTuple) (incoming : Option FieldTuple) : FieldTuple :=
  match incoming with
  | some t => if t.all (fun v => v.isSome) then t else slot
  | none => slot

/-- One whole-sample buffer update in `_reader_loop` (performed under the
buffer lock). -/
def mergeSample (b : StateBuffer) (s : SensorSample) : StateBuffer :=
  { accel := mergeField b.accel s.accel
    gyro := mergeField b.gyro s.gyro
    mag := mergeField b.mag s.mag
    quat := mergeField b.quat s.quat
    calib := mergeField b.calib s.calib }

/-- No slot of the buffer contains a null element. -/
def bufferNoNull (b : StateBuffer) : Bool :=
  b.accel.all (fun v => v.isSome) && b.gyro.all (fun v => v.isSome) &&
    b.mag.all (fun v => v.isSome) && b.quat.all (fun v => v.isSome) &&
    b.calib.all (fun v => v.isSome)

/-! ## Lemmas about the channel -/

theorem chanApply_length_le (q : List ℕ) (e : ChanEvt ℕ) (h : q.length ≤ chanCap) :
    ((chanApply q e).1).length ≤ chanCap := by
  cases e with
  | checkFull => exact h
  | evict =>
      simp only [chanApply, List.length_drop]
      omega
  | put s =>
      by_cases hl : q.length < chanCap
      · simp only [chanApply, if_pos hl, List.length_append, List.length_cons,
          List.length_nil]
        omega
      · simpa [chanApply, hl] using h
  | pop =>
      cases q with
      | nil => simp [chanApply, chanCap]
      | cons x rest => simp only [chanApply, List.length_cons] at h ⊢; omega

theorem chanRun_length_le (evts : List (ChanEvt ℕ)) :
    ∀ q : List ℕ, q.length ≤ chanCap → (chanRun q evts).length ≤ chanCap := by
  induction evts with
  | nil => intro q h; simpa [chanRun] using h
  | cons e es ih => intro q h; exact ih _ (chanApply_length_le q e h)

theorem put_success_state (q : List ℕ) (s : ℕ) (h : putOk q = true) :
    (chanApply q (ChanEvt.put s)).1 = [s] := by
  have h1 : q.length < chanCap := by simpa [putOk] using h
  have h0 : q.length = 0 := Nat.lt_one_iff.mp (by simpa [chanCap] using h1)
  have hq : q = [] := List.eq_nil_of_length_eq_zero h0
  subst hq
  simp [chanApply, chanCap]

theorem no_put_window (s : ℕ) (evts : List (ChanEvt ℕ)) :
    ∀ q : List ℕ, (q = [s] ∨ q = []) → NoSuccessfulPut q evts →
      (chanRun q evts = [s] ∨ chanRun q evts = []) ∧
        ∀ r ∈ chanResults q evts, r = some s ∨ r = none := by
  induction evts with
  | nil =>
      intro q hq _
      exact ⟨by simpa [chanRun] using hq, by simp [chanResults]⟩
  | cons e es ih =>
      intro q hq hn
      obtain ⟨hput, hrest⟩ := hn
      have hstep : ((chanApply q e).1 = [s] ∨ (chanApply q e).1 = []) ∧
          ((chanApply q e).2 = some s ∨ (chanApply q e).2 = none) := by
        rcases hq with rfl | rfl
        · cases e with
          | checkFull => simp [chanApply]
          | evict => simp [chanApply]
          | put x => simp [chanApply, chanCap]
          | pop => simp [chanApply]
        · cases e with
          | checkFull => simp [chanApply]
          | evict => simp [chanApply]
          | put x => exact absurd hput (by simp [putOk, chanCap])
          | pop => simp [chanApply]
      obtain ⟨hrun, hres⟩ := ih (chanApply q e).1 hstep.1 hrest
      refine ⟨by simpa [chanRun] using hrun, ?_⟩
      intro r hr
      simp only [chanResults, List.mem_cons] at hr
      rcases hr with rfl | hr
      · exact hstep.2
      · exact hres r hr

/-! ## Lemmas about the buffer merge -/

theorem mergeField_invalid (slot : FieldTuple) (incoming : Option FieldTuple)
    (h : fieldValid incoming = false) : mergeField slot incoming = slot := by
  cases incoming with
  | none => rfl
  | some t =>
      simp only [fieldValid] at h
      simp [mergeField, h]

theorem mergeField_noNull (slot : FieldTuple) (incoming : Option FieldTuple)
    (h : slot.all (fun v => v.isSome) = true) :
    (mergeField slot incoming).all (fun v => v.isSome) = true := by
  cases incoming with
  | none => simpa [mergeField] using h
  | some t => cases ht : t.all (fun v => v.isSome) <;> simp [mergeField, ht, h]

theorem mergeSample_noNull (b : StateBuffer) (s : SensorSample)
    (h : bufferNoNull b = true) : bufferNoNull (mergeSample b s) = true := by
  simp only [bufferNoNull, Bool.and_eq_true] at h ⊢
  obtain ⟨⟨⟨⟨h1, h2⟩, h3⟩, h4⟩, h5⟩ := h
  exact ⟨⟨⟨⟨mergeField_noNull _ _ h1, mergeField_noNull _ _ h2⟩,
    mergeField_noNull _ _ h3⟩, mergeField_noNull _ _ h4⟩,
    mergeField_noNull _ _ h5⟩

theorem foldl_mergeSample_noNull (samples : List SensorSample) :
    ∀ b : StateBuffer, bufferNoNull b = true →
      bufferNoNull (samples.foldl mergeSample b) = true := by
  induction samples with
  | nil => intro b h; simpa using h
  | cons s rest ih => intro b h; exact ih _ (mergeSample_noNull b s h)

/-! ## Claim theorems for the sampler side -/

/-- C1: in the reader loop, each State Buffer slot is overwritten only when
that field's tuple is non-null with every element non-null — otherwise the
slot keeps its previous value — and consequently, starting from the
zero-valued defaults, after any sequence of merged samples the buffer never
stores a tuple containing a null. -/
theorem buffer_merge_validity :
    (∀ (b : StateBuffer) (s : SensorSample),
      (fieldValid s.accel = false → (mergeSample b s).accel = b.accel) ∧
      (fieldValid s.gyro = false → (mergeSample b s).gyro = b.gyro) ∧
      (fieldValid s.mag = false → (mergeSample b s).mag = b.mag) ∧
      (fieldValid s.quat = false → (mergeSample b s).quat = b.quat) ∧
      (fieldValid s.calib = false → (mergeSample b s).calib = b.calib)) ∧
    (∀ samples : List SensorSample,
      bufferNoNull (samples.foldl mergeSample initBuffer) = true) := by
  constructor
  · intro b s
    exact ⟨fun h => mergeField_invalid _ _ h, fun h => mergeField_invalid _ _ h,
      fun h => mergeField_invalid _ _ h, fun h => mergeField_invalid _ _ h,
      fun h => mergeField_invalid _ _ h⟩
  · intro samples
    exact foldl_mergeSample_noNull samples initBuffer (by decide)

/-- Witness for `buffer_merge_validity`: a sample whose acceleration tuple
contains a null leaves the acceleration slot untouched, and the buffer
stays null-free. -/
theorem buffer_merge_validity_witness :
    (mergeSample initBuffer ⟨some [some 1, none], none, none, none, none⟩).accel
        = initBuffer.accel ∧
    bufferNoNull ([(⟨some [some 1, none], none, none, none, none⟩ : SensorSample)].foldl
        mergeSample initBuffer) = true :=
  ⟨(buffer_merge_validity.1 initBuffer ⟨some [some 1, none], none, none, none, none⟩).1
      (by decide),
    buffer_merge_validity.2 [⟨some [some 1, none], none, none, none, none⟩]⟩

/-- C2: the handoff channel never holds more than one sample under any
event interleaving; a successful push into the single slot leaves exactly
the pushed sample, and in any event window after the last successful push
every pop returns that pushed sample or nothing — never an older one. -/
theorem handoff_channel_freshness :
    (∀ evts : List (ChanEvt ℕ), (chanRun [] evts).length ≤ chanCap) ∧
    (∀ (q : List ℕ) (s : ℕ), putOk q = true → (chanApply q (ChanEvt.put s)).1 = [s]) ∧
    (∀ (s : ℕ) (evts : List (ChanEvt ℕ)), NoSuccessfulPut [s] evts →
      ∀ r ∈ chanResults [s] evts, r = some s ∨ r = none) := by
  refine ⟨fun evts => chanRun_length_le evts [] (by simp [chanCap]), put_success_state, ?_⟩
  intro s evts hn
  exact (no_put_window s evts [s] (Or.inl rfl) hn).2

/-- Witness for `handoff_channel_freshness`: pushing 7 into the empty slot
yields exactly [7], and two subsequent pops return 7 then nothing. -/
theorem handoff_channel_freshness_witness :
    putOk [] = true ∧ (chanApply [] (ChanEvt.put 7)).1 = [7] ∧
    ∀ r ∈ chanResults [7] [ChanEvt.pop, ChanEvt.pop], r = some 7 ∨ r = none :=
  ⟨by decide, handoff_channel_freshness.2.1 [] 7 (by decide),
    handoff_channel_freshness.2.2 7 [ChanEvt.pop, ChanEvt.pop]
      (by simp [NoSuccessfulPut, chanApply])⟩

/-- C3: each iteration's next deadline is the previous deadline plus the
period when the previous deadline has not yet passed, and the current time
plus one period on overrun (so a long stall resynchronizes instead of
bursting), and the loop sleeps exactly when the remainder
`deadline - now` is positive. -/
theorem sampler_deadline_schedule (now prevDeadline period now2 : ℚ) :
    (now ≤ prevDeadline →
      nextDeadline now prevDeadline period = prevDeadline + period) ∧
    (prevDeadline < now →
      nextDeadline now prevDeadline period = now + period) ∧
    (sleepsFor (nextDeadline now prevDeadline period) now2 = true ↔
      0 < nextDeadline now prevDeadline period - now2) := by
  refine ⟨?_, ?_, ?_⟩
  · intro h; rw [nextDeadline, if_neg (not_lt.mpr h)]
  · intro h; rw [nextDeadline, if_pos h]
  · simp [sleepsFor]

/-- Witness for `sampler_deadline_schedule`: at 100 Hz, a 50 ms stall past
deadline 0 gives next target (stall end) + (one period) = 6/100, not the
burst target 0 + 5 periods. -/
theorem sampler_deadline_schedule_witness :
    nextDeadline (5/100) 0 (1/100) = 5/100 + 1/100 ∧
    nextDeadline (5/100) 0 (1/100) ≠ 0 + 5 * (1/100) ∧
    sleepsFor (nextDeadline (5/100) 0 (1/100)) (5/100) = true := by
  have h := (sampler_deadline_schedule (5/100) 0 (1/100) (5/100)).2.1 (by norm_num)
  refine ⟨h, ?_, ?_⟩
  · rw [h]; norm_num
  · exact (sampler_deadline_schedule (5/100) 0 (1/100) (5/100)).2.2.mpr
      (by rw [h]; norm_num)

/-- C8: a sensor-read exception during a tick is caught: nothing is pushed
and the channel contents are unchanged, and the loop goes on to process
the remaining ticks — the exception never escapes the loop body. -/
theorem sampler_read_failure_skips_tick :
    (∀ (e : String) (q : List ℕ), sensorTick (Except.error e) q = q) ∧
    (∀ (e : String) (reads : List (Except String ℕ)) (q : List ℕ),
      runTicks (Except.error e :: reads) q = runTicks reads q) :=
  ⟨fun _ _ => rfl, fun _ _ _ => rfl⟩

/-! ## Lifecycle Controller (imu.py: `BNO055Manager`, lines 71-127) -/

/-- The manager's two executor handles and the reader stop event.  A handle
value `some alive` models a stored Process/Thread object whose `is_alive()`
returns `alive`; `none` models the attribute holding None. -/
structure LifecycleState where
  processHandle : Option Bool
  readerHandle : Option Bool
  stopReaderSet : Bool
deriving DecidableEq

/-- Observable side effects performed by `start`/`stop`. -/
inductive LifecycleAct where
  | terminateProc : LifecycleAct
  | joinProc : LifecycleAct
  | setStopReader : LifecycleAct
  | joinReader : LifecycleAct
  | spawnProc : LifecycleAct
  | spawnReader : LifecycleAct
  | clearStopReader : LifecycleAct
  | warnRunning : LifecycleAct
deriving DecidableEq

namespace BNO055Manager

/-- `__init__` (imu.py lines 77-80): no process handle, no reader-thread
handle, stop event clear. -/
def initState : LifecycleState := ⟨none, none, false⟩

/-- `stop()` (imu.py lines 115-127): when a process handle exists,
terminate it, join it, and clear the handle; then, when a reader-thread
handle exists, set the stop event, join the thread, and clear the handle.
Total on every state. -/
def stop (s : LifecycleState) : LifecycleState × List LifecycleAct :=
  let p :=
    match s.processHandle with
    | some _ =>
        ({ s with processHandle := none },
          [LifecycleAct.terminateProc, LifecycleAct.joinProc])
    | none => (s, [])
  match p.1.readerHandle with
  | some _ =>
      ({ p.1 with readerHandle := none, stopReaderSet := true },
        p.2 ++ [LifecycleAct.setStopReader, LifecycleAct.joinReader])
  | none => p

/-- The `self._x and self._x.is_alive()` test used by `start()`. -/
def aliveHandle : Option Bool → Bool
  | some alive => alive
  | none => false

/-- `start()` (imu.py lines 91-113): spawn the sensor process unless a live
one exists (then warn); clear the stop event and spawn the reader thread
unless a live one exists (then warn). -/
def start (s : LifecycleState) : LifecycleState × List LifecycleAct :=
  let p :=
    if aliveHandle s.processHandle then (s, [LifecycleAct.warnRunning])
    else ({ s with processHandle := some true }, [LifecycleAct.spawnProc])
  if aliveHandle p.1.readerHandle then (p.1, p.2 ++ [LifecycleAct.warnRunning])
  else ({ p.1 with readerHandle := some true, stopReaderSet := false },
    p.2 ++ [LifecycleAct.clearStopReader, LifecycleAct.spawnReader])

end BNO055Manager

/-- C9: `stop()` is safe and idempotent in every state: called on the fresh
(never-started) manager it is a no-op performing no actions; it always
leaves both handles cleared to None; calling it again on a stopped state
changes nothing and performs no actions (the stopped state is a fixed
point); when both executors exist it terminates and joins the process and
signals and joins the reader, in that order, before returning; and a
subsequent `start()` is well-defined, spawning fresh executors. -/
theorem lifecycle_stop_idempotent :
    BNO055Manager.stop BNO055Manager.initState = (BNO055Manager.initState, []) ∧
    (∀ s : LifecycleState, (BNO055Manager.stop s).1.processHandle = none ∧
      (BNO055Manager.stop s).1.readerHandle = none) ∧
    (∀ s : LifecycleState,
      BNO055Manager.stop (BNO055Manager.stop s).1 = ((BNO055Manager.stop s).1, [])) ∧
    (∀ s : LifecycleState, s.processHandle.isSome = true →
      s.readerHandle.isSome = true →
      (BNO055Manager.stop s).2 =
        [LifecycleAct.terminateProc, LifecycleAct.joinProc,
          LifecycleAct.setStopReader, LifecycleAct.joinReader]) ∧
    (∀ s : LifecycleState,
      (BNO055Manager.start (BNO055Manager.stop s).1).1.processHandle = some true ∧
      (BNO055Manager.start (BNO055Manager.stop s).1).1.readerHandle = some true) := by
  refine ⟨rfl, ?_, ?_, ?_, ?_⟩
  · rintro ⟨p, r, st⟩
    cases p <;> cases r <;> simp [BNO055Manager.stop]
  · rintro ⟨p, r, st⟩
    cases p <;> cases r <;> simp [BNO055Manager.stop]
  · rintro ⟨p, r, st⟩ h1 h2
    cases p with
    | none => simp at h1
    | some a =>
        cases r with
        | none => simp at h2
        | some b => simp [BNO055Manager.stop]
  · rintro ⟨p, r, st⟩
    cases p <;> cases r <;>
      simp [BNO055Manager.stop, BNO055Manager.start, BNO055Manager.aliveHandle]

/-- Witness for `lifecycle_stop_idempotent`: stopping a fully running
manager performs terminate, join, signal, join in order. -/
theorem lifecycle_stop_idempotent_witness :
    (BNO055Manager.stop ⟨some true, some true, false⟩).2 =
      [LifecycleAct.terminateProc, LifecycleAct.joinProc,
        LifecycleAct.setStopReader, LifecycleAct.joinReader] :=
  lifecycle_stop_idempotent.2.2.2.1 ⟨some true, some true, false⟩ (by decide) (by decide)

/-! ## Command Gateway (kos.py: `ActuatorService`, lines 30-202)

The two mutating handlers run their whole bodies inside
`async with self.temporal_lock`; the two read-only handlers never touch
the lock.  Handler bodies are modelled as sequences of abstract atomic
actions, and concurrency as arbitrary scheduler interleavings of two
handler instances sharing the one lock. -/

/-- One abstract step of an RPC handler body. -/
inductive RpcAct where
  | acquire : RpcAct
  | decode : RpcAct
  | apply : RpcAct
  | respond : RpcAct
  | release : RpcAct
  | readState : RpcAct
deriving DecidableEq

/-- `ConfigureActuator` (kos.py lines 37-67), normal path: request decoding
(lines 41-57), the `configure_actuator` controller call (line 59) and the
response construction (line 67) all happen inside
`async with self.temporal_lock`, which is released on exit. -/
def configureActuatorScript : List RpcAct :=
  [RpcAct.acquire, RpcAct.decode, RpcAct.apply, RpcAct.respond, RpcAct.release]

/-- `CommandActuators` (kos.py lines 81-97), normal path: command-list
decoding and filtering (lines 85-94), the `set_positions` call (line 95)
and the response (line 97) all happen inside the same lock. -/
def commandActuatorsScript : List RpcAct :=
  [RpcAct.acquire, RpcAct.decode, RpcAct.apply, RpcAct.respond, RpcAct.release]

/-- `GetActuatorsState` (kos.py lines 146-202): reads controller state and
responds; no lock operation appears in its body. -/
def getActuatorsStateScript : List RpcAct := [RpcAct.readState, RpcAct.respond]

/-- `ParameterDump` (kos.py lines 109-144): reads controller parameters and
responds; no lock operation appears in its body. -/
def parameterDumpScript : List RpcAct := [RpcAct.readState, RpcAct.respond]

/-- The exit paths of `ConfigureActuator` as action sequences: the normal
return; an exception raised while decoding (the `async with` releases the
lock during unwinding, then the except clause responds); an exception
(RuntimeError or any other) raised by the controller call. -/
def configureActuatorPaths : List (List RpcAct) :=
  [configureActuatorScript,
    [RpcAct.acquire, RpcAct.decode, RpcAct.release, RpcAct.respond],
    [RpcAct.acquire, RpcAct.decode, RpcAct.apply, RpcAct.release, RpcAct.respond]]

/-- The exit paths of `CommandActuators`, with the same structure. -/
def commandActuatorsPaths : List (List RpcAct) :=
  [commandActuatorsScript,
    [RpcAct.acquire, RpcAct.decode, RpcAct.release, RpcAct.respond],
    [RpcAct.acquire, RpcAct.decode, RpcAct.apply, RpcAct.release, RpcAct.respond]]

/-- Two handler coroutines (thread `false` runs `ConfigureActuator`,
thread `true` runs `CommandActuators`) sharing one `asyncio.Lock`;
`trace` records the executed actions in order. -/
structure GatewaySys where
  lockHeld : Option Bool
  rem0 : List RpcAct
  rem1 : List RpcAct
  trace : List (Bool × RpcAct)
deriving DecidableEq

def remOf (s : GatewaySys) (i : Bool) : List RpcAct := if i then s.rem1 else s.rem0

def setRem (s : GatewaySys) (i : Bool) (l : List RpcAct) : GatewaySys :=
  if i then { s with rem1 := l } else { s with rem0 := l }

/-- One scheduler step: thread `i` attempts its next action.  `acquire`
blocks (no state change) while the lock is held; `release` frees the lock;
a finished thread does nothing.  The other actions always proceed —
exclusion comes only from the lock, exactly as with `asyncio.Lock`. -/
def stepT (i : Bool) (s : GatewaySys) : GatewaySys :=
  match remOf s i with
  | [] => s
  | a :: rest =>
      match a with
      | RpcAct.acquire =>
          match s.lockHeld with
          | none =>
              { setRem s i rest with lockHeld := some i, trace := s.trace ++ [(i, a)] }
          | some _ => s
      | RpcAct.release =>
          { setRem s i rest with lockHeld := none, trace := s.trace ++ [(i, a)] }
      | _ => { setRem s i rest with trace := s.trace ++ [(i, a)] }

/-- Both handlers ready, lock free, nothing executed yet. -/
def gatewayInit : GatewaySys :=
  ⟨none, configureActuatorScript, commandActuatorsScript, []⟩

/-- Run a scheduler choice sequence from the initial state. -/
def runSched (sched : List Bool) : GatewaySys :=
  sched.foldl (fun t i => stepT i t) gatewayInit

def scriptOf (i : Bool) : List RpcAct :=
  if i then commandActuatorsScript else configureActuatorScript

def tagged (i : Bool) (l : List RpcAct) : List (Bool × RpcAct) :=
  l.map (fun a => (i, a))

/-- State in which thread `i` has performed `k` of its five actions and the
other thread has not started. -/
def mkMid (i : Bool) (k : Nat) : GatewaySys :=
  { lockHeld := if k < 5 then some i else none
    rem0 := if i then scriptOf false else (scriptOf false).drop k
    rem1 := if i then (scriptOf true).drop k else scriptOf true
    trace := tagged i ((scriptOf i).take k) }

/-- State in which thread `i` has finished and the other thread has
performed `k` of its five actions. -/
def mkEnd (i : Bool) (k : Nat) : GatewaySys :=
  { lockHeld := if k < 5 then some (!i) else none
    rem0 := if i then (scriptOf false).drop k else []
    rem1 := if i then [] else (scriptOf true).drop k
    trace := tagged i (scriptOf i) ++ tagged (!i) ((scriptOf (!i)).take k) }

/-- Every state reachable from `gatewayInit` under any interleaving. -/
def goodStates : List GatewaySys :=
  gatewayInit ::
    (([1, 2, 3, 4, 5].map (mkMid false)) ++ ([1, 2, 3, 4, 5].map (mkMid true)) ++
      ([1, 2, 3, 4, 5].map (mkEnd false)) ++ ([1, 2, 3, 4, 5].map (mkEnd true)))

theorem goodStates_closed :
    ∀ s ∈ goodStates, ∀ i : Bool, stepT i s ∈ goodStates := by decide

theorem goodStates_done_serial :
    ∀ s ∈ goodStates, s.rem0 = [] → s.rem1 = [] →
      s.trace =
          tagged false configureActuatorScript ++ tagged true commandActuatorsScript ∨
        s.trace =
          tagged true commandActuatorsScript ++ tagged false configureActuatorScript := by
  decide

theorem goodStates_trace_serial_segment :
    ∀ s ∈ goodStates,
      (tagged false configureActuatorScript ++
          tagged true commandActuatorsScript).take s.trace.length = s.trace ∨
        (tagged true commandActuatorsScript ++
          tagged false configureActuatorScript).take s.trace.length = s.trace := by
  decide

theorem runSched_good (sched : List Bool) :
    ∀ s ∈ goodStates, sched.foldl (fun t i => stepT i t) s ∈ goodStates := by
  induction sched with
  | nil => intro s hs; simpa using hs
  | cons i rest ih =>
      intro s hs
      simp only [List.foldl_cons]
      exact ih _ (goodStates_closed s hs i)

/-- C4: the mutating RPCs hold the Command Lock for their full duration —
on every exit path the lock is acquired exactly once at entry and released
exactly once, with all decoding and all controller application before the
release; the read-only queries never acquire the lock; and every complete
interleaving of the two mutating handlers executes one whole body and then
the other, so their effects never interleave. -/
theorem command_lock_serializes_mutating_rpcs :
    (∀ sched : List Bool,
      (runSched sched).rem0 = [] → (runSched sched).rem1 = [] →
        (runSched sched).trace =
            tagged false configureActuatorScript ++ tagged true commandActuatorsScript ∨
          (runSched sched).trace =
            tagged true commandActuatorsScript ++ tagged false configureActuatorScript) ∧
    (∀ sched : List Bool,
      (tagged false configureActuatorScript ++
          tagged true commandActuatorsScript).take (runSched sched).trace.length =
          (runSched sched).trace ∨
        (tagged true commandActuatorsScript ++
          tagged false configureActuatorScript).take (runSched sched).trace.length =
          (runSched sched).trace) ∧
    (RpcAct.acquire ∉ getActuatorsStateScript ∧
      RpcAct.acquire ∉ parameterDumpScript) ∧
    (∀ p ∈ configureActuatorPaths,
      p.count RpcAct.acquire = 1 ∧ p.count RpcAct.release = 1 ∧
      p.head? = some RpcAct.acquire ∧
      RpcAct.decode ∉ p.dropWhile (fun a => a != RpcAct.release) ∧
      RpcAct.apply ∉ p.dropWhile (fun a => a != RpcAct.release)) ∧
    (∀ p ∈ commandActuatorsPaths,
      p.count RpcAct.acquire = 1 ∧ p.count RpcAct.release = 1 ∧
      p.head? = some RpcAct.acquire ∧
      RpcAct.decode ∉ p.dropWhile (fun a => a != RpcAct.release) ∧
      RpcAct.apply ∉ p.dropWhile (fun a => a != RpcAct.release)) := by
  refine ⟨?_, ?_, by decide, by decide, by decide⟩
  · intro sched h0 h1
    exact goodStates_done_serial (runSched sched)
      (runSched_good sched gatewayInit (List.mem_cons_self _ _)) h0 h1
  · intro sched
    exact goodStates_trace_serial_segment (runSched sched)
      (runSched_good sched gatewayInit (List.mem_cons_self _ _))

/-- Witness for `command_lock_serializes_mutating_rpcs`: the schedule that
runs thread false to completion and then thread true yields a serial
trace. -/
theorem command_lock_serializes_mutating_rpcs_witness :
    (runSched [false, false, false, false, false, true, true, true, true, true]).trace =
        tagged false configureActuatorScript ++ tagged true commandActuatorsScript ∨
      (runSched [false, false, false, false, false, true, true, true, true, true]).trace =
        tagged true commandActuatorsScript ++ tagged false configureActuatorScript :=
  command_lock_serializes_mutating_rpcs.1
    [false, false, false, false, false, true, true, true, true, true]
    (by decide) (by decide)

/-! ## Actuator service handlers (kos.py lines 30-202) -/

/-- gRPC status classification set via `context.set_code`; `ok` models the
default when no error code is set. -/
inductive StatusCode where
  | ok : StatusCode
  | unavailable : StatusCode
  | resourceExhausted : StatusCode
  | internal : StatusCode
deriving DecidableEq

/-- Outcome of a call into the `SCSMotorController` lower layer: a normal
return, the RuntimeError it raises when another control operation is in
progress, or any other exception. -/
inductive LowerOutcome (β : Type) where
  | ret : β → LowerOutcome β
  | runtimeError : LowerOutcome β
  | otherError : String → LowerOutcome β
deriving DecidableEq

/-- `actuator_pb2.ActuatorStateResponse` as built by `GetActuatorsState`. -/
structure ActuatorStateResponse where
  actuator_id : Nat
  position : ℚ
  velocity : ℚ
  online : Bool
  faults : List String
deriving DecidableEq

/-- `actuator_pb2.ParameterDumpEntry`: a parameter dict keyed by name. -/
structure ParameterDumpEntry where
  actuator_id : Nat
  parameters : List (String × ℚ)
deriving DecidableEq

/-- Which protobuf message a handler constructs, with its contents. -/
inductive RpcPayload where
  | actionResponse : Bool → RpcPayload
  | commandActuatorsResponse : RpcPayload
  | parameterDumpResponse : List ParameterDumpEntry → RpcPayload
  | getActuatorsStateResponse : List ActuatorStateResponse → RpcPayload
deriving DecidableEq

/-- The `state_dict` returned by `get_state`: the handler reads
`position` and `velocity` with `.get(key, 0.0)` defaults. -/
structure StateDict where
  position : Option ℚ
  velocity : Option ℚ
deriving DecidableEq

/-- The `fault_info` dict returned by `get_faults`. -/
structure FaultInfo where
  last_fault_message : String
  total_faults : Nat
  last_fault_time : Int
deriving DecidableEq

/-- The slice of the `SCSMotorController` interface consumed by
`ActuatorService`. -/
structure Controller where
  actuator_ids : List Nat
  get_torque_enabled : Nat → Bool
  get_state : Nat → Option StateDict
  get_faults : Nat → Option FaultInfo
  read_all_servo_params : Nat → Except String (List (String × ℚ))

/-- A command from a `CommandActuators` request. -/
structure ActuatorCommand where
  actuator_id : Nat
  position : ℚ
deriving DecidableEq

namespace ActuatorService

/-- `ConfigureActuator` (kos.py lines 37-79) as a function of the
`configure_actuator` call outcome: a normal return yields OK with
ActionResponse carrying the success flag; RuntimeError yields
RESOURCE_EXHAUSTED with ActionResponse(success=False); any other exception
yields INTERNAL with ActionResponse(success=False). -/
def ConfigureActuator (configure_result : LowerOutcome Bool) :
    StatusCode × RpcPayload :=
  match configure_result with
  | LowerOutcome.ret success => (StatusCode.ok, RpcPayload.actionResponse success)
  | LowerOutcome.runtimeError =>
      (StatusCode.resourceExhausted, RpcPayload.actionResponse false)
  | LowerOutcome.otherError _ =>
      (StatusCode.internal, RpcPayload.actionResponse false)

/-- Insertion into the Python dict built by the comprehension at kos.py
lines 89-94: a repeated key overwrites the earlier entry in place. -/
def dictInsert (d : List (Nat × ℚ)) (k : Nat) (v : ℚ) : List (Nat × ℚ) :=
  if d.any (fun q => q.1 == k) then
    d.map (fun q => if q.1 == k then (k, v) else q)
  else d ++ [(k, v)]

/-- The `servo_commands` dict comprehension (kos.py lines 89-94), built
command by command: only commands whose actuator id is in
`actuator_controller.actuator_ids` are kept. -/
def servoCommandsFrom (c : Controller) (d : List (Nat × ℚ)) :
    List ActuatorCommand → List (Nat × ℚ)
  | [] => d
  | cmd :: rest =>
      servoCommandsFrom c
        (if c.actuator_ids.contains cmd.actuator_id then
          dictInsert d cmd.actuator_id cmd.position
        else d) rest

/-- The dict handed to `set_positions` (kos.py line 95). -/
def servoCommands (c : Controller) (cmds : List ActuatorCommand) :
    List (Nat × ℚ) :=
  servoCommandsFrom c [] cmds

/-- `CommandActuators` (kos.py lines 81-107) as a function of the
`set_positions` call outcome: a normal return yields OK with an empty
CommandActuatorsResponse; RuntimeError (line 99) yields RESOURCE_EXHAUSTED
but constructs `common_pb2.ActionResponse(success=False)` (line 102);
any other exception yields INTERNAL with a CommandActuatorsResponse
(line 107). -/
def CommandActuators (set_positions_result : LowerOutcome Unit) :
    StatusCode × RpcPayload :=
  match set_positions_result with
  | LowerOutcome.ret _ => (StatusCode.ok, RpcPayload.commandActuatorsResponse)
  | LowerOutcome.runtimeError =>
      (StatusCode.resourceExhausted, RpcPayload.actionResponse false)
  | LowerOutcome.otherError _ =>
      (StatusCode.internal, RpcPayload.commandActuatorsResponse)

/-- Does the payload have the message type `CommandActuators` is declared
to return (`actuator_pb2.CommandActuatorsResponse`)? -/
def isCommandActuatorsResponse : RpcPayload → Bool
  | RpcPayload.commandActuatorsResponse => true
  | _ => false

/-- The per-id entry collection of `ParameterDump` (kos.py lines 119-136):
an unregistered id is logged and skipped (`continue`), a failed parameter
read is logged and skipped, a successful read appends an entry. -/
def parameterDumpEntries (c : Controller) : List Nat → List ParameterDumpEntry
  | [] => []
  | aid :: rest =>
      if c.actuator_ids.contains aid then
        match c.read_all_servo_params aid with
        | Except.ok params =>
            { actuator_id := aid, parameters := params } ::
              parameterDumpEntries c rest
        | Except.error _ => parameterDumpEntries c rest
      else parameterDumpEntries c rest

/-- `ParameterDump` (kos.py lines 109-144): an empty requested-id list
defaults to all registered ids, sorted; the response carries the collected
entries. -/
def ParameterDump (c : Controller) (request_ids : List Nat) :
    StatusCode × RpcPayload :=
  let ids := if request_ids = [] then
      c.actuator_ids.mergeSort (fun a b => a ≤ b)
    else request_ids
  (StatusCode.ok, RpcPayload.parameterDumpResponse (parameterDumpEntries c ids))

/-- The faults list built at kos.py lines 171-178. -/
def faultStrings : Option FaultInfo → List String
  | none => []
  | some fi =>
      [fi.last_fault_message, toString fi.total_faults, toString fi.last_fault_time]

/-- The per-id entry built by `GetActuatorsState` (kos.py lines 156-197):
an unregistered id gets a zeroed offline entry with a
"servo not registered" fault; a registered id reports the controller's
state, torque-enabled flag (as `online`) and faults, falling back to a
zeroed offline entry when `get_state` returns None. -/
def stateEntry (c : Controller) (actuator_id : Nat) : ActuatorStateResponse :=
  if c.actuator_ids.contains actuator_id then
    let torque_enabled := c.get_torque_enabled actuator_id
    let faults := faultStrings (c.get_faults actuator_id)
    match c.get_state actuator_id with
    | none =>
        { actuator_id := actuator_id, position := 0, velocity := 0,
          online := false, faults := faults }
    | some sd =>
        { actuator_id := actuator_id, position := sd.position.getD 0,
          velocity := sd.velocity.getD 0, online := torque_enabled,
          faults := faults }
  else
    { actuator_id := actuator_id, position := 0, velocity := 0,
      online := false, faults := ["servo not registered"] }

/-- `GetActuatorsState` (kos.py lines 146-202): an empty requested-id list
defaults to all registered ids, sorted; otherwise the requested ids are
answered in request order. -/
def GetActuatorsState (c : Controller) (request_ids : List Nat) :
    StatusCode × RpcPayload :=
  let ids := if request_ids = [] then
      c.actuator_ids.mergeSort (fun a b => a ≤ b)
    else request_ids
  (StatusCode.ok, RpcPayload.getActuatorsStateResponse (ids.map (stateEntry c)))

end ActuatorService

/-! ## IMU service handlers (kos.py lines 205-334) -/

namespace IMUService

/-- The sensor accessors the IMU service handlers look up on the manager
object. -/
inductive IMUMethod where
  | get_values : IMUMethod
  | get_quaternion : IMUMethod
  | get_calibration_status : IMUMethod
  | get_euler : IMUMethod
  | get_advanced_values : IMUMethod
deriving DecidableEq

/-- The sensor accessors `BNO055Manager` actually defines (imu.py
lines 150-167: `get_values`, `get_quaternion`, `get_calibration_status`;
besides `start`, `stop` and `_reader_loop`).  There is no `get_euler` and
no `get_advanced_values`. -/
def bno055Methods : List IMUMethod :=
  [IMUMethod.get_values, IMUMethod.get_quaternion,
    IMUMethod.get_calibration_status]

/-- Responses of the Euler-angle and extended-values handlers. -/
inductive IMUReply where
  | eulerOk : ℚ → ℚ → ℚ → IMUReply
  | advancedOk : ℚ → ℚ → ℚ → ℚ → ℚ → ℚ → ℚ → IMUReply
  | errorReply : String → IMUReply
deriving DecidableEq

/-- `IMUService.GetEuler` (kos.py lines 261-277): the attribute access
`self.imu.get_euler` raises AttributeError when the manager does not
define the method; AttributeError is not an IMUNotAvailableError, so the
generic `except Exception` clause sets INTERNAL and returns the error
response.  When the method exists, the read angles are returned as a
success payload. -/
def GetEuler (methods : List IMUMethod) (euler : ℚ × ℚ × ℚ) :
    StatusCode × IMUReply :=
  if methods.contains IMUMethod.get_euler then
    (StatusCode.ok, IMUReply.eulerOk euler.1 euler.2.1 euler.2.2)
  else
    (StatusCode.internal, IMUReply.errorReply "AttributeError: get_euler")

/-- `IMUService.GetAdvancedValues` (kos.py lines 279-303): same shape as
`GetEuler`, calling `self.imu.get_advanced_values`. -/
def GetAdvancedValues (methods : List IMUMethod)
    (linAccel gravity : ℚ × ℚ × ℚ) (temp : ℚ) : StatusCode × IMUReply :=
  if methods.contains IMUMethod.get_advanced_values then
    (StatusCode.ok, IMUReply.advancedOk linAccel.1 linAccel.2.1 linAccel.2.2
      gravity.1 gravity.2.1 gravity.2.2 temp)
  else
    (StatusCode.internal, IMUReply.errorReply "AttributeError: get_advanced_values")

end IMUService

/-! ## Claim theorems for the service layer -/

/-- C5 (evaluation at the failing input): when the lower layer raises
RuntimeError, `ConfigureActuator` sets RESOURCE_EXHAUSTED and returns its
own typed ActionResponse(success=False), but `CommandActuators` — while
also setting RESOURCE_EXHAUSTED — returns an ActionResponse rather than
its own typed CommandActuatorsResponse, which its generic exception path
does return. -/
theorem commandActuators_runtime_error_payload :
    ActuatorService.ConfigureActuator LowerOutcome.runtimeError =
      (StatusCode.resourceExhausted, RpcPayload.actionResponse false) ∧
    (ActuatorService.CommandActuators LowerOutcome.runtimeError).1 =
      StatusCode.resourceExhausted ∧
    (ActuatorService.CommandActuators LowerOutcome.runtimeError).2 =
      RpcPayload.actionResponse false ∧
    ActuatorService.isCommandActuatorsResponse
      (ActuatorService.CommandActuators LowerOutcome.runtimeError).2 = false ∧
    ActuatorService.isCommandActuatorsResponse
      (ActuatorService.CommandActuators (LowerOutcome.otherError "boom")).2 = true := by
  decide

/-- C6: a `GetActuatorsState` request for [1, 99] where only 1 is
registered returns exactly two entries in request order: the entry for 1
carries the controller-reported position, velocity, torque-enabled flag
(as `online`) and faults, and the entry for 99 is offline with zero
position and velocity and the "servo not registered" fault. -/
theorem getActuatorsState_mixed_registration (c : Controller) (sd : StateDict)
    (h1 : c.actuator_ids.contains 1 = true)
    (h99 : c.actuator_ids.contains 99 = false)
    (hs : c.get_state 1 = some sd) :
    ActuatorService.GetActuatorsState c [1, 99] =
      (StatusCode.ok, RpcPayload.getActuatorsStateResponse
        [{ actuator_id := 1, position := sd.position.getD 0,
            velocity := sd.velocity.getD 0,
            online := c.get_torque_enabled 1,
            faults := ActuatorService.faultStrings (c.get_faults 1) },
          { actuator_id := 99, position := 0, velocity := 0, online := false,
            faults := ["servo not registered"] }]) := by
  have h1m : 1 ∈ c.actuator_ids := by simpa using h1
  have h99m : 99 ∉ c.actuator_ids := by simpa using h99
  simp [ActuatorService.GetActuatorsState, ActuatorService.stateEntry, h1m, h99m, hs]

/-- Witness for `getActuatorsState_mixed_registration` at a concrete
controller knowing only actuator 1. -/
theorem getActuatorsState_mixed_registration_witness :
    ActuatorService.GetActuatorsState
        { actuator_ids := [1]
          get_torque_enabled := fun _ => true
          get_state := fun i => if i = 1 then some ⟨some 2, some 3⟩ else none
          get_faults := fun _ => none
          read_all_servo_params := fun _ => Except.error "na" } [1, 99] =
      (StatusCode.ok, RpcPayload.getActuatorsStateResponse
        [{ actuator_id := 1, position := 2, velocity := 3, online := true,
            faults := [] },
          { actuator_id := 99, position := 0, velocity := 0, online := false,
            faults := ["servo not registered"] }]) := by
  have h := getActuatorsState_mixed_registration
    { actuator_ids := [1]
      get_torque_enabled := fun _ => true
      get_state := fun i => if i = 1 then some ⟨some 2, some 3⟩ else none
      get_faults := fun _ => none
      read_all_servo_params := fun _ => Except.error "na" }
    ⟨some 2, some 3⟩ (by decide) (by decide) (by simp)
  simpa [ActuatorService.faultStrings] using h

/-- C10: `GetEuler` and `GetAdvancedValues` look up methods that
`BNO055Manager` does not define, so for every request they return the
internal-error response and never a success payload. -/
theorem euler_and_advanced_always_internal :
    (∀ euler : ℚ × ℚ × ℚ,
      IMUService.GetEuler IMUService.bno055Methods euler =
        (StatusCode.internal,
          IMUService.IMUReply.errorReply "AttributeError: get_euler") ∧
      ∀ r p y : ℚ,
        (IMUService.GetEuler IMUService.bno055Methods euler).2 ≠
          IMUService.IMUReply.eulerOk r p y) ∧
    (∀ (la g : ℚ × ℚ × ℚ) (t : ℚ),
      IMUService.GetAdvancedValues IMUService.bno055Methods la g t =
        (StatusCode.internal,
          IMUService.IMUReply.errorReply "AttributeError: get_advanced_values") ∧
      ∀ a b c d e f w : ℚ,
        (IMUService.GetAdvancedValues IMUService.bno055Methods la g t).2 ≠
          IMUService.IMUReply.advancedOk a b c d e f w) := by
  constructor
  · intro euler
    constructor
    · simp [IMUService.GetEuler, IMUService.bno055Methods]
    · intro r p y
      simp [IMUService.GetEuler, IMUService.bno055Methods]
  · intro la g t
    constructor
    · simp [IMUService.GetAdvancedValues, IMUService.bno055Methods]
    · intro a b c d e f w
      simp [IMUService.GetAdvancedValues, IMUService.bno055Methods]

/-! ## Lemmas about the `servo_commands` dict and the parameter dump -/

theorem dictInsert_mem (d : List (Nat × ℚ)) (k : Nat) (v : ℚ) :
    ∀ p ∈ ActuatorService.dictInsert d k v, p ∈ d ∨ p.1 = k := by
  intro p hp
  unfold ActuatorService.dictInsert at hp
  by_cases h : d.any (fun q => q.1 == k) = true
  · rw [if_pos h] at hp
    rcases List.mem_map.mp hp with ⟨q, hq, hpq⟩
    by_cases hk : (q.1 == k) = true
    · right; rw [← hpq]; simp [hk]
    · left; rw [← hpq]; simpa [hk] using hq
  · rw [if_neg h] at hp
    rcases List.mem_append.mp hp with h1 | h1
    · exact Or.inl h1
    · right
      have : p = (k, v) := by simpa using h1
      rw [this]

theorem dictInsert_key_self (d : List (Nat × ℚ)) (k : Nat) (v : ℚ) :
    ∃ w, (k, w) ∈ ActuatorService.dictInsert d k v := by
  unfold ActuatorService.dictInsert
  by_cases h : d.any (fun q => q.1 == k) = true
  · rw [if_pos h]
    rcases List.any_eq_true.mp h with ⟨q, hq, hqk⟩
    exact ⟨v, List.mem_map.mpr ⟨q, hq, by simp [hqk]⟩⟩
  · rw [if_neg h]
    exact ⟨v, List.mem_append.mpr (Or.inr (by simp))⟩

theorem dictInsert_key_preserved (d : List (Nat × ℚ)) (k2 : Nat) (v2 : ℚ)
    (k : Nat) (h : ∃ w, (k, w) ∈ d) :
    ∃ w, (k, w) ∈ ActuatorService.dictInsert d k2 v2 := by
  obtain ⟨w, hw⟩ := h
  unfold ActuatorService.dictInsert
  by_cases hAny : d.any (fun q => q.1 == k2) = true
  · rw [if_pos hAny]
    by_cases hk : (k == k2) = true
    · have hkk : k = k2 := by simpa using hk
      subst hkk
      exact ⟨v2, List.mem_map.mpr ⟨(k, w), hw, by simp⟩⟩
    · exact ⟨w, List.mem_map.mpr ⟨(k, w), hw, by simp [hk]⟩⟩
  · rw [if_neg hAny]
    exact ⟨w, List.mem_append.mpr (Or.inl hw)⟩

theorem servoCommandsFrom_keys (c : Controller) (cmds : List ActuatorCommand) :
    ∀ d : List (Nat × ℚ), (∀ p ∈ d, c.actuator_ids.contains p.1 = true) →
      ∀ p ∈ ActuatorService.servoCommandsFrom c d cmds,
        c.actuator_ids.contains p.1 = true := by
  induction cmds with
  | nil =>
      intro d hd p hp
      exact hd p (by simpa [ActuatorService.servoCommandsFrom] using hp)
  | cons cmd rest ih =>
      intro d hd p hp
      simp only [ActuatorService.servoCommandsFrom] at hp
      by_cases hc : c.actuator_ids.contains cmd.actuator_id = true
      · rw [if_pos hc] at hp
        refine ih _ ?_ p hp
        intro q hq
        rcases dictInsert_mem d cmd.actuator_id cmd.position q hq with h | h
        · exact hd q h
        · rw [h]; exact hc
      · rw [if_neg hc] at hp
        exact ih d hd p hp

theorem servoCommandsFrom_key_persist (c : Controller)
    (cmds : List ActuatorCommand) :
    ∀ (d : List (Nat × ℚ)) (k : Nat), (∃ w, (k, w) ∈ d) →
      ∃ w, (k, w) ∈ ActuatorService.servoCommandsFrom c d cmds := by
  induction cmds with
  | nil =>
      intro d k h
      simpa [ActuatorService.servoCommandsFrom] using h
  | cons cmd rest ih =>
      intro d k h
      simp only [ActuatorService.servoCommandsFrom]
      by_cases hc : c.actuator_ids.contains cmd.actuator_id = true
      · rw [if_pos hc]
        exact ih _ k (dictInsert_key_preserved d cmd.actuator_id cmd.position k h)
      · rw [if_neg hc]
        exact ih d k h

theorem servoCommandsFrom_registered_present (c : Controller)
    (cmds : List ActuatorCommand) :
    ∀ (d : List (Nat × ℚ)) (cmd : ActuatorCommand), cmd ∈ cmds →
      c.actuator_ids.contains cmd.actuator_id = true →
      ∃ w, (cmd.actuator_id, w) ∈ ActuatorService.servoCommandsFrom c d cmds := by
  induction cmds with
  | nil =>
      intro d cmd h
      exact absurd h (List.not_mem_nil cmd)
  | cons hd rest ih =>
      intro d cmd hmem hreg
      simp only [ActuatorService.servoCommandsFrom]
      rcases List.mem_cons.mp hmem with rfl | hmem2
      · rw [if_pos hreg]
        exact servoCommandsFrom_key_persist c rest _ _
          (dictInsert_key_self d cmd.actuator_id cmd.position)
      · by_cases hc : c.actuator_ids.contains hd.actuator_id = true
        · rw [if_pos hc]
          exact ih _ cmd hmem2 hreg
        · rw [if_neg hc]
          exact ih d cmd hmem2 hreg

theorem parameterDumpEntries_skips (c : Controller) (ids : List Nat)
    (aid : Nat) (h : c.actuator_ids.contains aid = false) :
    ∀ e ∈ ActuatorService.parameterDumpEntries c ids, e.actuator_id ≠ aid := by
  induction ids with
  | nil =>
      intro e he
      simp [ActuatorService.parameterDumpEntries] at he
  | cons i rest ih =>
      intro e he
      simp only [ActuatorService.parameterDumpEntries] at he
      by_cases hc : c.actuator_ids.contains i = true
      · rw [if_pos hc] at he
        cases hr : c.read_all_servo_params i with
        | ok params =>
            rw [hr] at he
            rcases List.mem_cons.mp he with rfl | he2
            · intro hEq
              simp only at hEq
              rw [hEq] at hc
              rw [hc] at h
              simp at h
            · exact ih e he2
        | error m =>
            rw [hr] at he
            exact ih e he
      · rw [if_neg hc] at he
        exact ih e he

theorem parameterDumpEntries_registered_present (c : Controller) :
    ∀ (ids : List Nat) (aid : Nat) (params : List (String × ℚ)),
      aid ∈ ids → c.actuator_ids.contains aid = true →
      c.read_all_servo_params aid = Except.ok params →
      ∃ e ∈ ActuatorService.parameterDumpEntries c ids,
        e.actuator_id = aid ∧ e.parameters = params := by
  intro ids
  induction ids with
  | nil =>
      intro aid params h
      exact absurd h (List.not_mem_nil aid)
  | cons i rest ih =>
      intro aid params hmem hreg hread
      simp only [ActuatorService.parameterDumpEntries]
      rcases List.mem_cons.mp hmem with rfl | h2
      · rw [if_pos hreg, hread]
        exact ⟨⟨aid, params⟩, List.mem_cons_self _ _, rfl, rfl⟩
      · by_cases hc : c.actuator_ids.contains i = true
        · rw [if_pos hc]
          cases hr : c.read_all_servo_params i with
          | ok ps =>
              obtain ⟨e, he, hprop⟩ := ih aid params h2 hreg hread
              exact ⟨e, List.mem_cons_of_mem _ he, hprop⟩
          | error m =>
              exact ih aid params h2 hreg hread
        · rw [if_neg hc]
          exact ih aid params h2 hreg hread

/-- A concrete controller with only actuator 1 registered, for evaluating
the handlers at specific inputs. -/
def soloController : Controller :=
  { actuator_ids := [1]
    get_torque_enabled := fun _ => true
    get_state := fun _ => none
    get_faults := fun _ => none
    read_all_servo_params := fun _ => Except.ok [("p", 5)] }

/-- Counterexample to C7 as stated: a ParameterDump request for [1, 99]
against a controller knowing only actuator 1 yields an entry for 1 only;
the unregistered id 99 is not reported "not registered" in the per-item
results — no entry for it appears at all. -/
theorem parameterDump_unregistered_not_reported :
    (ActuatorService.ParameterDump soloController [1, 99]).2 =
      RpcPayload.parameterDumpResponse
        [{ actuator_id := 1, parameters := [("p", 5)] }] ∧
    ∀ e ∈ ActuatorService.parameterDumpEntries soloController [1, 99],
      e.actuator_id ≠ 99 := by
  constructor
  · rfl
  · decide

/-- C7 amended: a request naming an unregistered actuator id never fails
the whole call, and the id is surfaced per item as follows:
`CommandActuators` filters it out of the dict handed to `set_positions`
(every key passed is registered, and every registered requested id is
passed), while `ParameterDump` skips it — logging a warning and omitting
it from the per-item results — still returning an entry for each
registered requested id whose parameter read succeeds. -/
theorem unregistered_ids_handled_per_item :
    (∀ (c : Controller) (cmds : List ActuatorCommand) (k : Nat) (v : ℚ),
      (k, v) ∈ ActuatorService.servoCommands c cmds →
        c.actuator_ids.contains k = true) ∧
    (∀ (c : Controller) (cmds : List ActuatorCommand) (cmd : ActuatorCommand),
      cmd ∈ cmds → c.actuator_ids.contains cmd.actuator_id = true →
        ∃ w, (cmd.actuator_id, w) ∈ ActuatorService.servoCommands c cmds) ∧
    (∀ (c : Controller) (ids : List Nat) (aid : Nat),
      c.actuator_ids.contains aid = false →
        ∀ e ∈ ActuatorService.parameterDumpEntries c ids, e.actuator_id ≠ aid) ∧
    (∀ (c : Controller) (ids : List Nat) (aid : Nat) (params : List (String × ℚ)),
      aid ∈ ids → c.actuator_ids.contains aid = true →
        c.read_all_servo_params aid = Except.ok params →
        ∃ e ∈ ActuatorService.parameterDumpEntries c ids,
          e.actuator_id = aid ∧ e.parameters = params) := by
  refine ⟨?_, ?_, ?_, ?_⟩
  · intro c cmds k v hv
    exact servoCommandsFrom_keys c cmds [] (by simp) (k, v) hv
  · intro c cmds cmd hmem hreg
    exact servoCommandsFrom_registered_present c cmds [] cmd hmem hreg
  · intro c ids aid h
    exact parameterDumpEntries_skips c ids aid h
  · intro c ids aid params hmem hreg hread
    exact parameterDumpEntries_registered_present c ids aid params hmem hreg hread

/-- Witness for `unregistered_ids_handled_per_item`: with only actuator 1
registered, a command batch for ids 1 and 99 passes id 1 through and drops
99, and a parameter dump for [1, 99] reports 1 and omits 99. -/
theorem unregistered_ids_handled_per_item_witness :
    (∃ w, ((1 : Nat), w) ∈
      ActuatorService.servoCommands soloController [⟨1, 10⟩, ⟨99, 20⟩]) ∧
    (∀ e ∈ ActuatorService.parameterDumpEntries soloController [1, 99],
      e.actuator_id ≠ 99) ∧
    (∃ e ∈ ActuatorService.parameterDumpEntries soloController [1, 99],
      e.actuator_id = 1 ∧ e.parameters = [("p", 5)]) :=
  ⟨unregistered_ids_handled_per_item.2.1 soloController [⟨1, 10⟩, ⟨99, 20⟩]
      ⟨1, 10⟩ (by decide) (by decide),
    unregistered_ids_handled_per_item.2.2.1 soloController [1, 99] 99 (by decide),
    unregistered_ids_handled_per_item.2.2.2 soloController [1, 99] 1 [("p", 5)]
      (by decide) (by decide) rfl⟩

end KosZbot
